import Mathlib

/-
Verification development for the DrQA training repository
(src/train.py and src/drqa/model.py).

The Python code is shallowly embedded: lists stand for Python lists,
`ℚ` stands for Python floats, `ℤ` for Python ints, tensors are modelled
as index functions materialised into nested lists, and fallible code
returns `Except PyExc`.  External library calls (the RNN network forward
pass, the optimizer step, `torch.save`, RNG state queries, the RNG draws
behind `random.shuffle`) are passed in as explicit oracle parameters.
-/

namespace DrQA

/-! ## Data model

A training example is a Python list; `train.py` accesses its fields
positionally: `x[1]` is the tokenised document, `x[2]` the per-token
feature vectors, `x[3]` the POS tag ids, `x[4]` the NER entity ids,
`x[5]` the tokenised question, `x[6]` the raw text, `x[7]` the span,
`x[8]` the answer label (train mode only).  Field 0 is opaque. -/

structure Example where
  field0 : ℤ
  doc : List ℤ
  features : List (List ℚ)
  tags : List ℕ
  ents : List ℕ
  question : List ℤ
  text : String
  span : ℤ
  answ : ℚ
deriving DecidableEq

/-- The sort key of `BatchGen.__init__`: `key=lambda x: len(x[1])`. -/
def lenLe (a b : Example) : Prop := a.doc.length ≤ b.doc.length

instance : DecidableRel lenLe :=
  fun a b => inferInstanceAs (Decidable (a.doc.length ≤ b.doc.length))

instance : IsTotal Example lenLe := ⟨fun a b => Nat.le_total _ _⟩

instance : IsTrans Example lenLe := ⟨fun _ _ _ => Nat.le_trans⟩

/-- The call `sorted(data, key=lambda x: len(x[1]))` from
`BatchGen.__init__` (train.py line 261).  Python `sorted` is a stable
sort by the key; a stable sort is modelled by insertion sort, which is
also stable, so the two agree on every input. -/
def sortByLen (data : List Example) : List Example :=
  List.insertionSort lenLe data

/-- The chunking `[data[i:i + batch_size] for i in range(0, len(data), batch_size)]`
from `BatchGen.__init__` (train.py line 263).  Python raises `ValueError`
for a zero step; the `bs = 0` branch here is a totalisation artifact and
is never used (all theorems assume `0 < bs`). -/
def chunkList (bs : ℕ) (l : List α) : List (List α) :=
  if h : bs = 0 ∨ l.length = 0 then [] else l.take bs :: chunkList bs (l.drop bs)
termination_by l.length
decreasing_by
  simp only [List.length_drop]
  push_neg at h
  omega

/-- The sort-then-chunk stage of `BatchGen.__init__` (train.py lines 260-263),
before the optional shuffle. -/
def sortedChunks (data : List Example) (bs : ℕ) : List (List Example) :=
  chunkList bs (sortByLen data)

/-- Python stdlib `random.shuffle` (external to this repository), modelled
as draw-indexed selection: the RNG is a stream of naturals `draws`, and at
each step the element at index `draws.headD 0 mod length` is moved to the
front of the remainder.  Every choice of draws yields a permutation, which
is the only property of `random.shuffle` the code relies on. -/
def shuffleDraws : List ℕ → List α → List α
  | _, [] => []
  | draws, a :: rest =>
      let j := draws.headD 0 % (a :: rest).length
      (a :: rest).getD j a :: shuffleDraws draws.tail ((a :: rest).eraseIdx j)
termination_by _ l => l.length
decreasing_by
  have hj : draws.headD 0 % (a :: rest).length < (a :: rest).length :=
    Nat.mod_lt _ (by simp)
  simp only [List.length_cons] at hj
  simp only [List.length_eraseIdx, List.length_cons, if_pos hj]
  omega

/-- The `BatchGen` object after `__init__` (train.py lines 242-269).
`padToken` is 0 unless `bert` is set, in which case it is the external
BERT tokenizer pad id. -/
structure BatchGen where
  batchSize : ℕ
  eval : Bool
  gpu : Bool
  bert : Bool
  padToken : ℤ
  data : List (List Example)

/-- `BatchGen.__init__` (train.py lines 246-269): record the flags,
resolve the pad token, sort by document length, chunk into batches of
`batchSize`, and shuffle the batch list unless in evaluation mode.
`bertPadId` is the external `BertTokenizer` pad token id; `rngDraws` is
the RNG stream consumed by `random.shuffle`. -/
def BatchGen.init (data : List Example) (batchSize : ℕ) (gpu : Bool)
    (evaluation : Bool) (bert : Bool) (bertPadId : ℤ) (rngDraws : List ℕ) :
    BatchGen :=
  let padToken : ℤ := if bert then bertPadId else 0
  let chunked := sortedChunks data batchSize
  let shuffled := if evaluation then chunked else shuffleDraws rngDraws chunked
  ⟨batchSize, evaluation, gpu, bert, padToken, shuffled⟩

/-! ## Tensors

Torch tensors are modelled as total index functions; the imperative
`fill_` / indexed-assignment statements of `BatchGen.__iter__` become
function updates, folded over `enumerate` exactly as the Python loops
run.  A tensor of known shape is then materialised into nested lists. -/

/-- A 2-D tensor as an index function. -/
abbrev Tensor2 (β : Type) := ℕ → ℕ → β

/-- `torch.LongTensor(r, c).fill_(v)`: every entry is `v`. -/
def Tensor2.fill (v : β) : Tensor2 β := fun _ _ => v

/-- The single-entry assignment `t[i, j] = v`. -/
def Tensor2.set (t : Tensor2 β) (i j : ℕ) (v : β) : Tensor2 β :=
  fun a b => if a = i ∧ b = j then v else t a b

/-- A 3-D tensor as an index function. -/
abbrev Tensor3 (β : Type) := ℕ → ℕ → ℕ → β

/-- `torch.Tensor(r, c, d).fill_(v)`: every entry is `v`. -/
def Tensor3.fill (v : β) : Tensor3 β := fun _ _ _ => v

/-- The single-entry assignment `t[i, j, k] = v`. -/
def Tensor3.set (t : Tensor3 β) (i j k : ℕ) (v : β) : Tensor3 β :=
  fun a b c => if a = i ∧ b = j ∧ c = k then v else t a b c

/-- The row assignment `t[i, k:k+len(doc)] = doc`, written entry by
entry; the Python slice assignment always starts at `k = 0` but the
proofs generalise over the start column. -/
def writeRow2From (t : Tensor2 β) (i k : ℕ) (doc : List β) : Tensor2 β :=
  (doc.enumFrom k).foldl (fun s p => s.set i p.1 p.2) t

/-- The loop `for i, doc in enumerate(docs): t[i, :len(doc)] = doc` over a
tensor pre-filled with `pad` (train.py lines 284-286 and 311-313). -/
def buildPadded (pad : β) (docs : List (List β)) : Tensor2 β :=
  (docs.enumFrom 0).foldl (fun s p => writeRow2From s p.1 0 p.2) (Tensor2.fill pad)

/-- The inner loop `for j, tag in enumerate(doc): t[i, j, tag] = 1`,
generalised over the start row `k`. -/
def writeOneHotRowFrom (t : Tensor3 ℚ) (i k : ℕ) (tags : List ℕ) : Tensor3 ℚ :=
  (tags.enumFrom k).foldl (fun s p => s.set i p.1 p.2 1) t

/-- The one-hot construction for `context_tag` / `context_ent`
(train.py lines 296-304): a zero-filled tensor with `t[i, j, tag] = 1`
for every token. -/
def buildOneHot (rows : List (List ℕ)) : Tensor3 ℚ :=
  (rows.enumFrom 0).foldl (fun s p => writeOneHotRowFrom s p.1 0 p.2) (Tensor3.fill 0)

/-- The vector assignment `t[i, j, :] = vec`, entry by entry. -/
def writeVec3From (t : Tensor3 ℚ) (i j k : ℕ) (vec : List ℚ) : Tensor3 ℚ :=
  (vec.enumFrom k).foldl (fun s p => s.set i j p.1 p.2) t

/-- The loop `for j, feature in enumerate(doc): t[i, j, :] = feature`. -/
def writeFeatRowFrom (t : Tensor3 ℚ) (i k : ℕ) (feats : List (List ℚ)) : Tensor3 ℚ :=
  (feats.enumFrom k).foldl (fun s p => writeVec3From s i p.1 0 p.2) t

/-- The `context_feature` construction (train.py lines 291-294). -/
def buildFeature (rows : List (List (List ℚ))) : Tensor3 ℚ :=
  (rows.enumFrom 0).foldl (fun s p => writeFeatRowFrom s p.1 0 p.2) (Tensor3.fill 0)

/-- Materialise a 2-D tensor of shape `rows × cols` into nested lists. -/
def mat2 (rows cols : ℕ) (t : Tensor2 β) : List (List β) :=
  (List.range rows).map fun i => (List.range cols).map fun j => t i j

/-- Materialise a 3-D tensor of shape `rows × cols × depth`. -/
def mat3 (rows cols depth : ℕ) (t : Tensor3 β) : List (List (List β)) :=
  (List.range rows).map fun i =>
    (List.range cols).map fun j => (List.range depth).map fun k => t i j k

/-- Entry access into a materialised 3-D tensor, with default 0. -/
def entry3 (m : List (List (List ℚ))) (i j t : ℕ) : ℚ :=
  ((m.getD i []).getD j []).getD t 0

/-- Python `max` over a list of naturals (`max(len(x) for x in batch)`);
Python raises on an empty sequence, which never occurs since batches are
nonempty chunks, so the empty case defaults to 0. -/
def listMax (xs : List ℕ) : ℕ := xs.foldl Nat.max 0

/-! ## Batch collation (`BatchGen.__iter__`, train.py lines 274-339) -/

/-- One yielded batch tuple.  The `None` entries of the BERT branch and
of evaluation mode become `Option.none`; `pin_memory` is an identity on
values and is dropped. -/
structure CollatedBatch where
  contextId : List (List ℤ)
  contextFeature : Option (List (List (List ℚ)))
  contextTag : Option (List (List (List ℚ)))
  contextEnt : Option (List (List (List ℚ)))
  contextMask : List (List Bool)
  questionId : List (List ℤ)
  questionMask : List (List Bool)
  text : List String
  span : List ℤ
  answ : Option (List ℚ)
deriving DecidableEq

/-- The body of `BatchGen.__iter__` for one batch (train.py lines
275-339): compute `context_len` as the longest document, build the
pad-filled `context_id`, the feature and one-hot tensors in non-BERT
mode, the pad-filled `question_id`, the masks, and the answer vector in
train mode.  `posSize` and `nerSize` are the `BatchGen.pos_size` /
`BatchGen.ner_size` class attributes set by `load_data`. -/
def BatchGen.collate (bg : BatchGen) (posSize nerSize : ℕ)
    (batch : List Example) : CollatedBatch :=
  let batchSize := batch.length
  let docs := batch.map (·.doc)
  let contextLen := listMax (docs.map (·.length))
  let contextId := mat2 batchSize contextLen (buildPadded bg.padToken docs)
  let feats := batch.map (·.features)
  let featureLen := ((feats.headD []).headD []).length
  let contextFeature := if bg.bert then none else
    some (mat3 batchSize contextLen featureLen (buildFeature feats))
  let contextTag := if bg.bert then none else
    some (mat3 batchSize contextLen posSize (buildOneHot (batch.map (·.tags))))
  let contextEnt := if bg.bert then none else
    some (mat3 batchSize contextLen nerSize (buildOneHot (batch.map (·.ents))))
  let questions := batch.map (·.question)
  let questionLen := listMax (questions.map (·.length))
  let questionId := mat2 batchSize questionLen (buildPadded bg.padToken questions)
  let contextMask := contextId.map (fun row => row.map (fun v => v == bg.padToken))
  let questionMask := questionId.map (fun row => row.map (fun v => v == bg.padToken))
  { contextId := contextId
    contextFeature := contextFeature
    contextTag := contextTag
    contextEnt := contextEnt
    contextMask := contextMask
    questionId := questionId
    questionMask := questionMask
    text := batch.map (·.text)
    span := batch.map (·.span)
    answ := if bg.eval then none else some (batch.map (·.answ)) }

/-! ## The document reader model (src/drqa/model.py)

The neural network itself (`RnnDocReader` in drqa/rnn_reader.py) and the
optimizer live outside src/ and outside this repository's claims; their
states are opaque naturals and their effects are oracle functions. -/

/-- Modelled from the spec: the loss-meter state used by
`self.train_loss.state_dict()`; the `AverageMeter` class lives in
drqa/utils.py, which is not under src/.  Only its identity as a stored
value matters to the claims, so it is a wrapped running value. -/
structure LossState where
  value : ℚ
deriving DecidableEq

/-- The slice of the `opt` config dictionary that model.py reads. -/
structure Config where
  cuda : Bool
  bert : Bool
deriving DecidableEq

/-- `DocReaderModel` (model.py lines 28-54): config, opaque network and
optimizer states, the `updates` counter and the loss meter. -/
structure DocReaderModel where
  opt : Config
  networkState : ℕ
  optimizerState : ℕ
  updates : ℕ
  trainLoss : LossState
deriving DecidableEq

/-- The nested dictionary stored under the key `state_dict` by
`DocReaderModel.save` (model.py lines 124-129). -/
structure InnerStateDict where
  network : ℕ
  optimizer : ℕ
  updates : ℕ
  loss : LossState
deriving DecidableEq

/-- The `params` dictionary written by `DocReaderModel.save`
(model.py lines 123-137). -/
structure Checkpoint where
  state_dict : InnerStateDict
  config : Config
  epoch : ℕ
  accuracy : ℚ
  best_eval : ℚ
  random_state : ℕ
  torch_state : ℕ
  torch_cuda_state : ℕ
deriving DecidableEq

/-- The ambient RNG state visible to `save`: `random.getstate()`,
`torch.random.get_rng_state()` and `torch.cuda.get_rng_state()`.  The
CUDA query is `none` when it raises, which happens on a machine or build
without CUDA; the code calls it unconditionally. -/
structure RngEnv where
  randomState : ℕ
  torchState : ℕ
  cudaState : Option ℕ
deriving DecidableEq

/-- Python exceptions that the embedded code can raise. -/
inductive PyExc
  | nameError (n : String)
  | cudaRuntimeError
deriving DecidableEq

/-- `DocReaderModel.save` (model.py lines 121-142).  The `params`
dictionary is assembled first — including the unconditional
`torch.cuda.get_rng_state()` call, which sits OUTSIDE the later
`try` block and whose failure therefore propagates.  Only the
`torch.save` call (success signalled by the `torchSaveOk` oracle) is
guarded by `try ... except BaseException`, which logs a warning and
continues.  `file` is the current content of the target path; the
result carries the new content and whether the warning was logged.
A failed `torch.save` is modelled as leaving the target unchanged. -/
def DocReaderModel.save (m : DocReaderModel) (epoch : ℕ) (scores : ℚ × ℚ)
    (rng : RngEnv) (torchSaveOk : Bool) (file : Option Checkpoint) :
    Except PyExc (Option Checkpoint × Bool) :=
  match rng.cudaState with
  | none => .error .cudaRuntimeError
  | some cs =>
    let params : Checkpoint :=
      { state_dict :=
          { network := m.networkState
            optimizer := m.optimizerState
            updates := m.updates
            loss := m.trainLoss }
        config := m.opt
        epoch := epoch
        accuracy := scores.1
        best_eval := scores.2
        random_state := rng.randomState
        torch_state := rng.torchState
        torch_cuda_state := cs }
    if torchSaveOk then .ok (some params, false) else .ok (file, true)

/-- The names bound at module level in drqa/model.py: its imports plus
`logger` and the class itself.  The name `opt` is not among them. -/
def modelModuleGlobals : List String :=
  ["random", "torch", "optim", "F", "np", "logging",
   "Variable", "AverageMeter", "RnnDocReader", "logger", "DocReaderModel"]

/-- Python `round` on a float, which rounds halves to even. -/
def pyRound (q : ℚ) : ℤ :=
  let f := ⌊q⌋
  let r := q - (f : ℚ)
  if r < 1/2 then f
  else if 1/2 < r then f + 1
  else if f % 2 = 0 then f else f + 1

/-- `DocReaderModel.predict` (model.py lines 99-119).  The comprehension
`[not_none(e, opt['cuda']) for e in ex[:7]]` on line 110 evaluates the
bare name `opt`, which is resolved against the module globals of
drqa/model.py (there is no local or enclosing binding); when the lookup
fails Python raises `NameError`.  Were the name bound, the forward pass
would run and each per-example score would be rounded.  `network` is the
external `RnnDocReader` forward pass. -/
def DocReaderModel.predict (m : DocReaderModel) (ex : CollatedBatch)
    (network : CollatedBatch → List ℚ) : Except PyExc (List ℤ) :=
  if modelModuleGlobals.contains "opt" then
    .ok ((network ex).map pyRound)
  else
    .error (.nameError "opt")

/-- `DocReaderModel.update` (model.py lines 70-97): forward, loss,
backward, clip, optimizer step, `updates += 1`.  The numeric work is
external, so the new network and optimizer states come from the
`stepNet` / `stepOpt` oracles and the loss value from `lossVal`. -/
def DocReaderModel.update (m : DocReaderModel) (ex : CollatedBatch)
    (stepNet stepOpt : ℕ → ℕ) (lossVal : ℚ) : DocReaderModel :=
  { m with
    networkState := stepNet m.networkState
    optimizerState := stepOpt m.optimizerState
    trainLoss := { value := lossVal }
    updates := m.updates + 1 }

/-! ## The training driver (src/train.py main) -/

/-- The `score` function (train.py lines 341-343): the fraction of
positions where prediction and truth agree.  Python would raise
`ZeroDivisionError` on an empty truth list; division by zero yields 0
here and the case never arises on the paths the claims mention. -/
def score (pred : List ℤ) (truth : List ℤ) : ℚ :=
  (((pred.zip truth).countP fun p => p.1 == p.2 : ℕ) : ℚ) / (truth.length : ℚ)

/-- The prediction loop `for i, batch in enumerate(batches):
predictions.extend(model.predict(batch))` (train.py lines 47-49 and
79-80). -/
def evalAll (m : DocReaderModel) (batches : List CollatedBatch)
    (network : CollatedBatch → List ℚ) : Except PyExc (List ℤ) :=
  batches.foldlM (fun acc b => do
    let p ← m.predict b network
    pure (acc ++ p)) []

/-- The resume branch of `main` (train.py lines 46-57) from the point
where the model has been restored: build evaluation batches over `dev`
(note: without the `bert` flag, so `bert=False`), collect predictions,
score them, and compare with the recorded accuracy; a gap above `1e-3`
logs an error and exits with status 1 (`Sum.inl 1`), otherwise training
continues with `best_val_score = checkpoint['best_eval']`
(`Sum.inr`). -/
def resumeStep (ckpt : Checkpoint) (m : DocReaderModel) (dev : List Example)
    (batchSize : ℕ) (gpu : Bool) (posSize nerSize : ℕ)
    (network : CollatedBatch → List ℚ) (devY : List ℤ) :
    Except PyExc (Sum ℕ ℚ) := do
  let bg := BatchGen.init dev batchSize gpu true false 0 []
  let predictions ← evalAll m (bg.data.map (bg.collate posSize nerSize)) network
  let accuracy := score predictions devY
  if |accuracy - ckpt.accuracy| > 1/1000 then
    pure (.inl 1)
  else
    pure (.inr ckpt.best_eval)

/-- The command-line and data-derived parameters that drive the epoch
loop of `main` (train.py lines 64-97). -/
structure TrainArgs where
  batchSize : ℕ
  gpu : Bool
  bert : Bool
  saveLastOnly : Bool
  epochs : ℕ
  epoch0 : ℕ
  posSize : ℕ
  nerSize : ℕ
  bertPadId : ℤ

/-- The external effects the loop consumes, indexed by epoch where the
code queries them afresh each epoch: the network forward pass, the
optimizer and backward-pass effects, the loss values, the RNG draws
behind the per-epoch `random.shuffle`, and the ambient state seen by
`model.save`. -/
structure Oracles where
  network : CollatedBatch → List ℚ
  stepNet : ℕ → ℕ
  stepOpt : ℕ → ℕ
  lossVal : ℚ
  draws : ℕ → List ℕ
  rngAt : ℕ → RngEnv
  saveOkAt : ℕ → Bool

/-- Observable events of the epoch loop, in program order. -/
inductive Event
  | update
  | predictDone
  | saveCkpt (epoch : ℕ)
  | copyBest (epoch : ℕ)
deriving DecidableEq

/-- The training phase of one epoch (train.py lines 67-74): every batch
goes through `model.update`; one `Event.update` is recorded per batch. -/
def trainPhase (m : DocReaderModel) (batches : List CollatedBatch)
    (o : Oracles) : DocReaderModel × List Event :=
  batches.foldl
    (fun acc b => (acc.1.update b o.stepNet o.stepOpt o.lossVal,
                   acc.2 ++ [Event.update]))
    (m, [])

/-- The evaluation phase of one epoch (train.py lines 77-82): extend the
prediction list batch by batch, then score against `dev_y`.  An
exception inside `model.predict` aborts the loop with the events
recorded so far. -/
def evalGo (m : DocReaderModel) (o : Oracles) (devY : List ℤ) :
    List CollatedBatch → List ℤ → List Event → List Event × Except PyExc ℚ
  | [], preds, ev => (ev, .ok (score preds devY))
  | b :: rest, preds, ev =>
    match m.predict b o.network with
    | .error e => (ev, .error e)
    | .ok p => evalGo m o devY rest (preds ++ p) (ev ++ [Event.predictDone])

/-- The save phase of one epoch (train.py lines 88-96): skip entirely
when `--save_last_only` is set and this is not the final epoch;
otherwise write the epoch checkpoint, and when the accuracy strictly
beats the best score so far, raise the best score and copy the
checkpoint file over best_model.pt.  Returns the new best score, the
epoch-checkpoint file content, the best-model file content, and the
events. -/
def savePhase (args : TrainArgs) (m : DocReaderModel) (epoch : ℕ)
    (accuracy best : ℚ) (rng : RngEnv) (torchSaveOk : Bool)
    (ckptFile bestFile : Option Checkpoint) :
    Except PyExc (ℚ × Option Checkpoint × Option Checkpoint × List Event) :=
  if args.saveLastOnly ∧ epoch ≠ args.epoch0 + args.epochs - 1 then
    .ok (best, ckptFile, bestFile, [])
  else
    match m.save epoch (accuracy, best) rng torchSaveOk ckptFile with
    | .error e => .error e
    | .ok (newFile, _warned) =>
      if accuracy > best then
        .ok (accuracy, newFile, newFile, [Event.saveCkpt epoch, Event.copyBest epoch])
      else
        .ok (best, newFile, bestFile, [Event.saveCkpt epoch])

/-- The epoch loop `for epoch in range(epoch_0, epoch_0 + args.epochs)`
(train.py lines 64-97), by recursion on the number of remaining epochs:
build a fresh shuffled `BatchGen` over the training data, run the
training phase, build a fresh deterministic `BatchGen` over the dev
data, run the evaluation phase, then the save phase.  An uncaught
exception stops the program, keeping the events so far. -/
def runEpochs (args : TrainArgs) (trainData devData : List Example)
    (devY : List ℤ) (o : Oracles) :
    ℕ → ℕ → DocReaderModel → ℚ → Option Checkpoint → Option Checkpoint →
    List Event × Except PyExc ℚ
  | 0, _, _, best, _, _ => ([], .ok best)
  | n + 1, epoch, m, best, ckptFile, bestFile =>
    let bgT := BatchGen.init trainData args.batchSize args.gpu false args.bert
      args.bertPadId (o.draws epoch)
    let tp := trainPhase m (bgT.data.map (bgT.collate args.posSize args.nerSize)) o
    let bgD := BatchGen.init devData args.batchSize args.gpu true args.bert
      args.bertPadId []
    let eg := evalGo tp.1 o devY (bgD.data.map (bgD.collate args.posSize args.nerSize)) [] []
    match eg.2 with
    | .error e => (tp.2 ++ eg.1, .error e)
    | .ok accuracy =>
      match savePhase args tp.1 epoch accuracy best (o.rngAt epoch) (o.saveOkAt epoch)
          ckptFile bestFile with
      | .error e => (tp.2 ++ eg.1, .error e)
      | .ok (best1, ckptFile1, bestFile1, ev3) =>
        let r := runEpochs args trainData devData devY o n (epoch + 1) tp.1
          best1 ckptFile1 bestFile1
        (tp.2 ++ eg.1 ++ ev3 ++ r.1, r.2)

/-- The whole post-initialisation run of `main` in the fresh-start case:
`args.epochs` epochs starting at `epoch_0`, with no checkpoint files on
disk yet.  The result is the event trace and either the final
`best_val_score` or the uncaught exception. -/
def runTraining (args : TrainArgs) (trainData devData : List Example)
    (devY : List ℤ) (o : Oracles) (m0 : DocReaderModel) (best0 : ℚ) :
    List Event × Except PyExc ℚ :=
  runEpochs args trainData devData devY o args.epochs args.epoch0 m0 best0 none none

/-! ## Sample data for concrete witnesses -/

/-- A sample example with a two-token document. -/
def exA : Example := ⟨0, [1, 2], [[1]], [0, 1], [0, 0], [5], "a", 0, 1⟩

/-- A sample example with a one-token document. -/
def exB : Example := ⟨1, [3], [[2]], [1], [0], [6, 7], "b", 1, 0⟩

/-- A sample example with a three-token document. -/
def exC : Example := ⟨2, [4, 5, 6], [[3]], [0, 0, 1], [1, 1, 0], [8], "c", 2, 1⟩

/-- A sample dataset of three examples. -/
def exData : List Example := [exA, exB, exC]

/-- A sample checkpoint for concrete witnesses. -/
def ckpt0 : Checkpoint := ⟨⟨0, 0, 0, ⟨0⟩⟩, ⟨false, false⟩, 1, 1/2, 1/2, 0, 0, 0⟩

/-- A sample model state for concrete witnesses. -/
def model0 : DocReaderModel := ⟨⟨false, false⟩, 0, 0, 0, ⟨0⟩⟩

/-- Sample training arguments: batch size 2, one epoch starting at 1. -/
def args0 : TrainArgs := ⟨2, false, false, false, 1, 1, 2, 2, 0⟩

/-- Sample oracles for concrete witnesses. -/
def oracles0 : Oracles :=
  ⟨fun _ => [], id, id, 0, fun _ => [], fun _ => ⟨0, 0, some 0⟩, fun _ => true⟩

/-! ## Lemmas about chunking and shuffling -/

theorem chunkList_nil (bs : ℕ) : chunkList bs ([] : List α) = [] := by
  rw [chunkList]
  simp

theorem chunkList_cons (bs : ℕ) (hbs : 0 < bs) (l : List α) (hl : l ≠ []) :
    chunkList bs l = l.take bs :: chunkList bs (l.drop bs) := by
  rw [chunkList, dif_neg]
  rintro (h | h)
  · omega
  · exact hl (List.length_eq_zero.mp h)

theorem chunkList_flatten (bs : ℕ) (hbs : 0 < bs) :
    ∀ l : List α, (chunkList bs l).flatten = l
  | [] => by simp [chunkList_nil]
  | a :: l => by
    rw [chunkList_cons bs hbs _ (List.cons_ne_nil a l)]
    rw [List.flatten_cons]
    rw [chunkList_flatten bs hbs ((a :: l).drop bs)]
    exact List.take_append_drop _ _
termination_by l => l.length
decreasing_by simp only [List.length_drop, List.length_cons]; omega

theorem chunkList_chunk_le (bs : ℕ) :
    ∀ (l : List α) (c : List α), c ∈ chunkList bs l → c.length ≤ bs
  | l, c => by
    intro hc
    rw [chunkList] at hc
    split at hc
    · simp at hc
    · rcases List.mem_cons.mp hc with rfl | hmem
      · simp [List.length_take]
      · exact chunkList_chunk_le bs (l.drop bs) c hmem
termination_by l => l.length
decreasing_by
  rename_i h
  push_neg at h
  simp only [List.length_drop]
  omega

theorem chunkList_chunk_sublist (bs : ℕ) :
    ∀ (l : List α) (c : List α), c ∈ chunkList bs l → c.Sublist l
  | l, c => by
    intro hc
    rw [chunkList] at hc
    split at hc
    · simp at hc
    · rcases List.mem_cons.mp hc with rfl | hmem
      · exact List.take_sublist bs l
      · exact (chunkList_chunk_sublist bs (l.drop bs) c hmem).trans (List.drop_sublist bs l)
termination_by l => l.length
decreasing_by
  rename_i h
  push_neg at h
  simp only [List.length_drop]
  omega

theorem chunkList_length (bs : ℕ) (hbs : 0 < bs) :
    ∀ l : List α, (chunkList bs l).length = (l.length + bs - 1) / bs
  | [] => by
    rw [chunkList_nil]
    simp only [List.length_nil]
    symm
    apply Nat.div_eq_of_lt
    omega
  | a :: l => by
    rw [chunkList_cons bs hbs _ (List.cons_ne_nil a l)]
    simp only [List.length_cons]
    rw [chunkList_length bs hbs ((a :: l).drop bs)]
    simp only [List.length_drop, List.length_cons]
    rcases le_or_lt bs (l.length + 1) with hle | hlt
    · have h1 : l.length + 1 - bs + bs - 1 = l.length := by omega
      have h2 : l.length + 1 + bs - 1 = l.length + bs := by omega
      rw [h1, h2, Nat.add_div_right _ hbs]
    · have h1 : l.length + 1 - bs = 0 := by omega
      have h2 : (0 + bs - 1) / bs = 0 := Nat.div_eq_of_lt (by omega)
      have h3 : l.length + 1 + bs - 1 = l.length + bs := by omega
      rw [h1, h2, h3, Nat.add_div_right _ hbs, Nat.div_eq_of_lt (by omega)]
termination_by l => l.length
decreasing_by simp only [List.length_drop, List.length_cons]; omega

theorem chunkList_full (bs : ℕ) (hbs : 0 < bs) :
    ∀ (l : List α) (i : ℕ), i + 1 < (chunkList bs l).length →
      ((chunkList bs l).getD i []).length = bs
  | l, i => by
    intro hi
    by_cases hl0 : l.length = 0
    · rw [List.length_eq_zero.mp hl0, chunkList_nil] at hi
      simp at hi
    · have hl : l ≠ [] := fun he => hl0 (by simp [he])
      rw [chunkList_cons bs hbs l hl] at hi ⊢
      cases i with
      | zero =>
        simp only [List.length_cons] at hi
        have hdrop : l.drop bs ≠ [] := by
          intro he
          rw [he, chunkList_nil] at hi
          simp at hi
        have hlen : bs < l.length := by
          by_contra hle
          push_neg at hle
          exact hdrop (List.drop_eq_nil_of_le hle)
        simp only [List.getD_cons_zero, List.length_take]
        omega
      | succ j =>
        simp only [List.getD_cons_succ]
        apply chunkList_full bs hbs (l.drop bs) j
        simpa using hi
termination_by l => l.length
decreasing_by
  simp only [List.length_drop]
  have : 0 < l.length := Nat.pos_of_ne_zero hl0
  omega

theorem shuffleDraws_perm : ∀ (draws : List ℕ) (l : List α), (shuffleDraws draws l).Perm l
  | _, [] => by simp [shuffleDraws]
  | draws, a :: rest => by
    simp only [shuffleDraws]
    have hj : draws.headD 0 % (a :: rest).length < (a :: rest).length :=
      Nat.mod_lt _ (by simp)
    have hgetD : (a :: rest).getD (draws.headD 0 % (a :: rest).length) a
        = (a :: rest).get ⟨_, hj⟩ :=
      List.getD_eq_getElem _ a hj
    have hrec := shuffleDraws_perm draws.tail
      ((a :: rest).eraseIdx (draws.headD 0 % (a :: rest).length))
    refine (hrec.cons _).trans ?_
    rw [hgetD, List.eraseIdx_eq_take_drop_succ]
    have htgt : (a :: rest).take (draws.headD 0 % (a :: rest).length) ++
        ((a :: rest).get ⟨_, hj⟩ :: (a :: rest).drop (draws.headD 0 % (a :: rest).length + 1))
        = a :: rest := by
      rw [List.get_eq_getElem, List.getElem_cons_drop, List.take_append_drop]
    conv_rhs => rw [← htgt]
    exact List.perm_middle.symm
termination_by _ l => l.length
decreasing_by
  have hj : draws.headD 0 % (a :: rest).length < (a :: rest).length :=
    Nat.mod_lt _ (by simp)
  simp only [List.length_cons] at hj
  simp only [List.length_eraseIdx, List.length_cons, if_pos hj]
  omega

/-! ## Claims C3, C6 and C9 -/

/-- C3: `BatchGen` sorts the input examples in ascending order of
`len(x[1])` and partitions the sorted list into consecutive chunks of at
most `batch_size` examples; each batch is length-ordered internally and
every chunk except possibly the last has exactly `batch_size`
elements. -/
theorem C3_batchgen_sorts_and_chunks (data : List Example) (bs : ℕ) (hbs : 0 < bs) :
    (sortByLen data).Perm data ∧
    List.Sorted lenLe (sortByLen data) ∧
    (sortedChunks data bs).flatten = sortByLen data ∧
    (∀ c ∈ sortedChunks data bs, c.length ≤ bs ∧ List.Sorted lenLe c) ∧
    (∀ i, i + 1 < (sortedChunks data bs).length →
      ((sortedChunks data bs).getD i []).length = bs) := by
  refine ⟨List.perm_insertionSort lenLe data, List.sorted_insertionSort lenLe data,
    chunkList_flatten bs hbs _, ?_, ?_⟩
  · intro c hc
    exact ⟨chunkList_chunk_le bs _ c hc,
      List.Pairwise.sublist (chunkList_chunk_sublist bs _ c hc)
        (List.sorted_insertionSort lenLe data)⟩
  · intro i hi
    exact chunkList_full bs hbs _ i hi

/-- Witness for C3: the theorem instantiated at a concrete three-example
dataset with batch size 2. -/
theorem C3_batchgen_sorts_and_chunks_witness :
    (0 : ℕ) < 2 ∧
    ((sortByLen exData).Perm exData ∧
    List.Sorted lenLe (sortByLen exData) ∧
    (sortedChunks exData 2).flatten = sortByLen exData ∧
    (∀ c ∈ sortedChunks exData 2, c.length ≤ 2 ∧ List.Sorted lenLe c) ∧
    (∀ i, i + 1 < (sortedChunks exData 2).length →
      ((sortedChunks exData 2).getD i []).length = 2)) :=
  ⟨by norm_num, C3_batchgen_sorts_and_chunks exData 2 (by norm_num)⟩

/-- C6: with `evaluation=True` the batch list is the sorted chunking,
independent of the RNG, so two evaluation passes over the same data
enumerate the batches in the same deterministic order; with
`evaluation=False` the batch list is the random shuffle of the chunking,
a permutation of it. -/
theorem C6_shuffle_only_when_training (data : List Example) (bs : ℕ)
    (gpu bert : Bool) (padId : ℤ) (draws draws2 : List ℕ) :
    (BatchGen.init data bs gpu true bert padId draws).data = sortedChunks data bs ∧
    (BatchGen.init data bs gpu true bert padId draws).data
      = (BatchGen.init data bs gpu true bert padId draws2).data ∧
    (BatchGen.init data bs gpu false bert padId draws).data
      = shuffleDraws draws (sortedChunks data bs) ∧
    ((BatchGen.init data bs gpu false bert padId draws).data).Perm
      (sortedChunks data bs) :=
  ⟨rfl, rfl, rfl, shuffleDraws_perm draws _⟩

/-- C9: the batches of a `BatchGen` partition the input — their
concatenation is a permutation of the input list — and the number of
batches is the ceiling of the data size over the batch size. -/
theorem C9_batchgen_partitions (data : List Example) (bs : ℕ)
    (gpu evaluation bert : Bool) (padId : ℤ) (draws : List ℕ) (hbs : 0 < bs) :
    ((BatchGen.init data bs gpu evaluation bert padId draws).data.flatten).Perm data ∧
    (BatchGen.init data bs gpu evaluation bert padId draws).data.length
      = (data.length + bs - 1) / bs := by
  have hperm : ((BatchGen.init data bs gpu evaluation bert padId draws).data).Perm
      (sortedChunks data bs) := by
    unfold BatchGen.init
    cases evaluation
    · exact shuffleDraws_perm draws _
    · exact List.Perm.refl _
  constructor
  · refine hperm.flatten.trans ?_
    simp only [sortedChunks]
    rw [chunkList_flatten bs hbs]
    exact List.perm_insertionSort lenLe data
  · rw [hperm.length_eq, sortedChunks, chunkList_length bs hbs]
    simp [sortByLen, List.length_insertionSort]

/-- Witness for C9: the theorem instantiated at the concrete dataset with
batch size 2, in training mode with a nontrivial RNG stream. -/
theorem C9_batchgen_partitions_witness :
    (0 : ℕ) < 2 ∧
    (((BatchGen.init exData 2 false false false 0 [1, 0]).data.flatten).Perm exData ∧
    (BatchGen.init exData 2 false false false 0 [1, 0]).data.length
      = (exData.length + 2 - 1) / 2) :=
  ⟨by norm_num, C9_batchgen_partitions exData 2 false false false 0 [1, 0] (by norm_num)⟩

/-! ## Lemmas about the tensor folds -/

theorem writeRow2From_apply (doc : List β) :
    ∀ (t : Tensor2 β) (i k a b : ℕ),
    writeRow2From t i k doc a b =
      if a = i ∧ k ≤ b then (doc[b - k]?).getD (t a b) else t a b := by
  induction doc with
  | nil =>
    intro t i k a b
    simp [writeRow2From, List.enumFrom_nil]
  | cons v doc ih =>
    intro t i k a b
    have hstep : writeRow2From t i k (v :: doc)
        = writeRow2From (Tensor2.set t i k v) i (k + 1) doc := by
      simp [writeRow2From, List.enumFrom_cons]
    rw [hstep, ih]
    by_cases hai : a = i
    · by_cases hbk : b = k
      · have h2 : ¬ (k + 1 ≤ b) := by omega
        simp [Tensor2.set, hai, hbk, h2, Nat.sub_self]
      · by_cases hkb : k ≤ b
        · have h2 : k + 1 ≤ b := by omega
          have h4 : b - k = (b - (k + 1)) + 1 := by omega
          simp [Tensor2.set, hai, hbk, hkb, h2, h4, List.getElem?_cons_succ]
        · have h2 : ¬ (k + 1 ≤ b) := by omega
          simp [Tensor2.set, hai, hbk, hkb, h2]
    · simp [Tensor2.set, hai]

theorem buildPadded_fold_apply (docs : List (List β)) :
    ∀ (t : Tensor2 β) (k a b : ℕ),
    ((docs.enumFrom k).foldl (fun s p => writeRow2From s p.1 0 p.2) t) a b =
      if k ≤ a ∧ a - k < docs.length
      then (((docs[a - k]?).getD [])[b]?).getD (t a b)
      else t a b := by
  induction docs with
  | nil =>
    intro t k a b
    simp [List.enumFrom_nil]
  | cons row docs ih =>
    intro t k a b
    have hstep : ((row :: docs).enumFrom k).foldl
          (fun s p => writeRow2From s p.1 0 p.2) t
        = (docs.enumFrom (k + 1)).foldl (fun s p => writeRow2From s p.1 0 p.2)
            (writeRow2From t k 0 row) := by
      simp [List.enumFrom_cons]
    rw [hstep, ih]
    by_cases hka : k ≤ a
    · by_cases hak : a = k
      · have h2 : ¬ (k + 1 ≤ a) := by omega
        rw [if_neg (by tauto)]
        rw [writeRow2From_apply]
        simp [hak, Nat.sub_self]
      · have h2 : k + 1 ≤ a := by omega
        have h4 : a - k = (a - (k + 1)) + 1 := by omega
        have hrw : writeRow2From t k 0 row a b = t a b := by
          rw [writeRow2From_apply]
          simp [hak]
        by_cases h3 : a - (k + 1) < docs.length
        · rw [if_pos ⟨h2, h3⟩,
            if_pos ⟨hka, by simp only [List.length_cons]; omega⟩, hrw, h4]
          simp [List.getElem?_cons_succ]
        · rw [if_neg (by tauto),
            if_neg (by rintro ⟨_, hlt⟩; simp only [List.length_cons] at hlt; omega)]
          exact hrw
    · have h2 : ¬ (k + 1 ≤ a) := by omega
      have hak : a ≠ k := by omega
      rw [if_neg (by tauto), if_neg (by tauto)]
      rw [writeRow2From_apply]
      simp [hak]

theorem buildPadded_apply (pad : β) (docs : List (List β)) (a b : ℕ) :
    buildPadded pad docs a b =
      if a < docs.length then (((docs[a]?).getD [])[b]?).getD pad else pad := by
  have := buildPadded_fold_apply docs (Tensor2.fill pad) 0 a b
  simp only [buildPadded] at *
  rw [this]
  simp [Tensor2.fill]

theorem writeOneHotRowFrom_apply (tags : List ℕ) :
    ∀ (t : Tensor3 ℚ) (i k a b c : ℕ),
    writeOneHotRowFrom t i k tags a b c =
      if a = i ∧ k ≤ b ∧ tags[b - k]? = some c then 1 else t a b c := by
  induction tags with
  | nil =>
    intro t i k a b c
    simp [writeOneHotRowFrom, List.enumFrom_nil]
  | cons g tags ih =>
    intro t i k a b c
    have hstep : writeOneHotRowFrom t i k (g :: tags)
        = writeOneHotRowFrom (Tensor3.set t i k g 1) i (k + 1) tags := by
      simp [writeOneHotRowFrom, List.enumFrom_cons]
    rw [hstep, ih]
    by_cases hai : a = i
    · by_cases hbk : b = k
      · have h2 : ¬ (k + 1 ≤ b) := by omega
        by_cases hcg : c = g
        · simp [Tensor3.set, hai, hbk, hcg, h2, Nat.sub_self]
        · simp [Tensor3.set, hai, hbk, hcg, h2, Nat.sub_self,
            show g ≠ c from fun h => hcg h.symm]
      · by_cases hkb : k ≤ b
        · have h2 : k + 1 ≤ b := by omega
          have h4 : b - k = (b - (k + 1)) + 1 := by omega
          simp [Tensor3.set, hai, hbk, hkb, h2, h4, List.getElem?_cons_succ]
        · have h2 : ¬ (k + 1 ≤ b) := by omega
          simp [Tensor3.set, hai, hbk, hkb, h2]
    · simp [Tensor3.set, hai]

theorem buildOneHot_fold_apply (rows : List (List ℕ)) :
    ∀ (t : Tensor3 ℚ) (k a b c : ℕ),
    ((rows.enumFrom k).foldl (fun s p => writeOneHotRowFrom s p.1 0 p.2) t) a b c =
      if k ≤ a ∧ ((rows[a - k]?).getD [])[b]? = some c then 1 else t a b c := by
  induction rows with
  | nil =>
    intro t k a b c
    simp [List.enumFrom_nil]
  | cons row rows ih =>
    intro t k a b c
    have hstep : ((row :: rows).enumFrom k).foldl
          (fun s p => writeOneHotRowFrom s p.1 0 p.2) t
        = (rows.enumFrom (k + 1)).foldl (fun s p => writeOneHotRowFrom s p.1 0 p.2)
            (writeOneHotRowFrom t k 0 row) := by
      simp [List.enumFrom_cons]
    rw [hstep, ih]
    by_cases hka : k ≤ a
    · by_cases hak : a = k
      · have h2 : ¬ (k + 1 ≤ a) := by omega
        rw [if_neg (by tauto)]
        rw [writeOneHotRowFrom_apply]
        simp [hak, Nat.sub_self]
      · have h2 : k + 1 ≤ a := by omega
        have h4 : a - k = (a - (k + 1)) + 1 := by omega
        have hrw : writeOneHotRowFrom t k 0 row a b c = t a b c := by
          rw [writeOneHotRowFrom_apply]
          simp [hak]
        rw [hrw, h4]
        simp [hka, h2, List.getElem?_cons_succ]
    · have h2 : ¬ (k + 1 ≤ a) := by omega
      have hak : a ≠ k := by omega
      rw [if_neg (by tauto), if_neg (by tauto)]
      rw [writeOneHotRowFrom_apply]
      simp [hak]

theorem buildOneHot_apply (rows : List (List ℕ)) (a b c : ℕ) :
    buildOneHot rows a b c =
      if ((rows[a]?).getD [])[b]? = some c then 1 else 0 := by
  have := buildOneHot_fold_apply rows (Tensor3.fill 0) 0 a b c
  simp only [buildOneHot] at *
  rw [this]
  simp [Tensor3.fill]

/-! ## Lemmas about listMax and materialisation -/

theorem foldl_max_facts (xs : List ℕ) :
    ∀ a, a ≤ xs.foldl Nat.max a ∧ ∀ x ∈ xs, x ≤ xs.foldl Nat.max a := by
  induction xs with
  | nil => intro a; simp
  | cons y ys ih =>
    intro a
    have h := ih (Nat.max a y)
    refine ⟨le_trans (Nat.le_max_left a y) (by simpa using h.1), ?_⟩
    intro x hx
    rcases List.mem_cons.mp hx with rfl | hmem
    · exact le_trans (Nat.le_max_right a x) (by simpa using h.1)
    · simpa using h.2 x hmem

theorem le_listMax (xs : List ℕ) (x : ℕ) (hx : x ∈ xs) : x ≤ listMax xs :=
  (foldl_max_facts xs 0).2 x hx

theorem foldl_max_mem (xs : List ℕ) :
    ∀ a, xs.foldl Nat.max a = a ∨ xs.foldl Nat.max a ∈ xs := by
  induction xs with
  | nil => intro a; simp
  | cons y ys ih =>
    intro a
    rcases ih (Nat.max a y) with h | h
    · simp only [List.foldl_cons, h]
      rcases Nat.le_total y a with hm | hm
      · exact Or.inl (Nat.max_eq_left hm)
      · refine Or.inr ?_
        have hmax : Nat.max a y = y := Nat.max_eq_right hm
        rw [hmax]
        exact List.mem_cons_self y ys
    · exact Or.inr (List.mem_cons_of_mem y (by simpa using h))

theorem listMax_attained (xs : List ℕ) (hne : xs ≠ []) : ∃ x ∈ xs, x = listMax xs := by
  match xs, hne with
  | y :: ys, _ =>
    rcases foldl_max_mem (y :: ys) 0 with h | h
    · exact ⟨y, List.mem_cons_self y ys, le_antisymm (le_listMax _ y (by simp))
        (by simp [listMax, h])⟩
    · exact ⟨listMax (y :: ys), h, rfl⟩

theorem range_map_pad (row : List β) (pad : β) (L : ℕ) (hL : row.length ≤ L) :
    (List.range L).map (fun b => (row[b]?).getD pad)
      = row ++ List.replicate (L - row.length) pad := by
  apply List.ext_getElem
  · simp
    omega
  · intro n h1 h2
    simp only [List.getElem_map, List.getElem_range]
    by_cases hn : n < row.length
    · rw [List.getElem?_eq_getElem hn]
      simp [List.getElem_append, hn]
    · rw [List.getElem?_eq_none (by omega)]
      rw [List.getElem_append_right (by omega)]
      simp [List.getElem_replicate]

theorem mat2_length (rows cols : ℕ) (t : Tensor2 β) :
    (mat2 rows cols t).length = rows := by
  simp [mat2]

theorem mat2_row_length (rows cols : ℕ) (t : Tensor2 β) :
    ∀ row ∈ mat2 rows cols t, row.length = cols := by
  intro row hrow
  rcases List.mem_map.mp hrow with ⟨i, _, rfl⟩
  simp

theorem mat2_get (rows cols : ℕ) (t : Tensor2 β) (i : ℕ) (hi : i < rows) :
    (mat2 rows cols t)[i]? = some ((List.range cols).map (t i)) := by
  simp only [mat2]
  rw [List.getElem?_map, List.getElem?_range hi]
  rfl

/-- The padded matrix built by `BatchGen.__iter__` for `context_id` and
`question_id`: shape, and each row is the document followed by pad
entries. -/
theorem padded_matrix_spec (pad : β) (docs : List (List β)) (L : ℕ)
    (hL : ∀ d ∈ docs, d.length ≤ L) :
    (mat2 docs.length L (buildPadded pad docs)).length = docs.length ∧
    (∀ row ∈ mat2 docs.length L (buildPadded pad docs), row.length = L) ∧
    (∀ (i : ℕ) (d : List β), docs[i]? = some d →
      (mat2 docs.length L (buildPadded pad docs))[i]? =
        some (d ++ List.replicate (L - d.length) pad)) := by
  refine ⟨mat2_length _ _ _, mat2_row_length _ _ _, ?_⟩
  intro i d hd
  have hi : i < docs.length := by
    by_contra hge
    rw [List.getElem?_eq_none (by omega)] at hd
    exact Option.noConfusion hd
  rw [mat2_get _ _ _ i hi]
  congr 1
  have hrow : ∀ b, buildPadded pad docs i b = (d[b]?).getD pad := by
    intro b
    rw [buildPadded_apply]
    rw [if_pos hi, hd]
    rfl
  calc (List.range L).map (buildPadded pad docs i)
      = (List.range L).map (fun b => (d[b]?).getD pad) := by
        apply List.map_congr_left
        intro b _
        exact hrow b
    _ = d ++ List.replicate (L - d.length) pad :=
        range_map_pad d pad L (hL d (List.getElem?_mem hd))

theorem mat3_length (rows cols depth : ℕ) (t : Tensor3 β) :
    (mat3 rows cols depth t).length = rows := by
  simp [mat3]

theorem mat3_plane_length (rows cols depth : ℕ) (t : Tensor3 β) :
    ∀ p ∈ mat3 rows cols depth t, p.length = cols ∧ ∀ q ∈ p, q.length = depth := by
  intro p hp
  rcases List.mem_map.mp hp with ⟨i, _, rfl⟩
  constructor
  · simp
  · intro q hq
    rcases List.mem_map.mp hq with ⟨j, _, rfl⟩
    simp

theorem mat3_get (n L D : ℕ) (t : Tensor3 β) (i : ℕ) (hi : i < n) :
    (mat3 n L D t)[i]? =
      some ((List.range L).map fun j => (List.range D).map fun k => t i j k) := by
  simp only [mat3]
  rw [List.getElem?_map, List.getElem?_range hi]
  rfl

theorem entry3_mat3 (n L D : ℕ) (t : Tensor3 ℚ) (i j k : ℕ)
    (hi : i < n) (hj : j < L) (hk : k < D) :
    entry3 (mat3 n L D t) i j k = t i j k := by
  simp only [entry3, List.getD_eq_getElem?_getD]
  rw [mat3_get n L D t i hi]
  simp only [Option.getD_some]
  rw [List.getElem?_map, List.getElem?_range hj]
  simp only [Option.map_some', Option.getD_some]
  rw [List.getElem?_map, List.getElem?_range hk]
  simp only [Option.map_some', Option.getD_some]

theorem lt_of_getElem?_some {γ : Type} {l : List γ} {i : ℕ} {x : γ}
    (h : l[i]? = some x) : i < l.length := by
  by_contra hge
  rw [List.getElem?_eq_none (by omega)] at h
  exact Option.noConfusion h

theorem collate_contextId (bg : BatchGen) (posSize nerSize : ℕ) (batch : List Example) :
    (bg.collate posSize nerSize batch).contextId
      = mat2 batch.length
          (listMax ((batch.map fun x => x.doc).map fun d => d.length))
          (buildPadded bg.padToken (batch.map fun x => x.doc)) := rfl

theorem collate_questionId (bg : BatchGen) (posSize nerSize : ℕ) (batch : List Example) :
    (bg.collate posSize nerSize batch).questionId
      = mat2 batch.length
          (listMax ((batch.map fun x => x.question).map fun d => d.length))
          (buildPadded bg.padToken (batch.map fun x => x.question)) := rfl

theorem collate_contextTag (bg : BatchGen) (posSize nerSize : ℕ) (batch : List Example) :
    (bg.collate posSize nerSize batch).contextTag
      = if bg.bert then none else
          some (mat3 batch.length
            (listMax ((batch.map fun x => x.doc).map fun d => d.length))
            posSize (buildOneHot (batch.map fun x => x.tags))) := rfl

theorem collate_contextEnt (bg : BatchGen) (posSize nerSize : ℕ) (batch : List Example) :
    (bg.collate posSize nerSize batch).contextEnt
      = if bg.bert then none else
          some (mat3 batch.length
            (listMax ((batch.map fun x => x.doc).map fun d => d.length))
            nerSize (buildOneHot (batch.map fun x => x.ents))) := rfl

theorem doc_len_map (batch : List Example) :
    ((batch.map fun x => x.doc).map fun d => d.length)
      = batch.map fun x => x.doc.length := by
  rw [List.map_map]
  rfl

theorem question_len_map (batch : List Example) :
    ((batch.map fun x => x.question).map fun d => d.length)
      = batch.map fun x => x.question.length := by
  rw [List.map_map]
  rfl

/-! ## Claims C4 and C5 -/

/-- C4: every collated batch yields a `context_id` matrix with one row
per example whose width is the longest document of the batch; row `i`
starts with the token ids of document `i` and is padded with the pad
token 0, and `question_id` likewise with the longest question. -/
theorem C4_zero_padding (bg : BatchGen) (posSize nerSize : ℕ) (batch : List Example)
    (hpad : bg.padToken = 0) (hne : batch ≠ []) :
    (bg.collate posSize nerSize batch).contextId.length = batch.length ∧
    (∀ row ∈ (bg.collate posSize nerSize batch).contextId,
      row.length = listMax (batch.map fun x => x.doc.length)) ∧
    (∃ e ∈ batch, e.doc.length = listMax (batch.map fun x => x.doc.length)) ∧
    (∀ e ∈ batch, e.doc.length ≤ listMax (batch.map fun x => x.doc.length)) ∧
    (∀ (i : ℕ) (e : Example), batch[i]? = some e →
      (bg.collate posSize nerSize batch).contextId[i]? =
        some (e.doc ++ List.replicate
          (listMax (batch.map fun x => x.doc.length) - e.doc.length) (0 : ℤ))) ∧
    (bg.collate posSize nerSize batch).questionId.length = batch.length ∧
    (∀ row ∈ (bg.collate posSize nerSize batch).questionId,
      row.length = listMax (batch.map fun x => x.question.length)) ∧
    (∃ e ∈ batch, e.question.length = listMax (batch.map fun x => x.question.length)) ∧
    (∀ e ∈ batch, e.question.length ≤ listMax (batch.map fun x => x.question.length)) ∧
    (∀ (i : ℕ) (e : Example), batch[i]? = some e →
      (bg.collate posSize nerSize batch).questionId[i]? =
        some (e.question ++ List.replicate
          (listMax (batch.map fun x => x.question.length) - e.question.length) (0 : ℤ))) := by
  have hLd : ∀ d ∈ (batch.map fun x => x.doc),
      d.length ≤ listMax (batch.map fun x => x.doc.length) := by
    intro d hd
    apply le_listMax
    rw [← doc_len_map]
    exact List.mem_map_of_mem _ hd
  have hLq : ∀ d ∈ (batch.map fun x => x.question),
      d.length ≤ listMax (batch.map fun x => x.question.length) := by
    intro d hd
    apply le_listMax
    rw [← question_len_map]
    exact List.mem_map_of_mem _ hd
  have hd := padded_matrix_spec (0 : ℤ) (batch.map fun x => x.doc) _ hLd
  have hq := padded_matrix_spec (0 : ℤ) (batch.map fun x => x.question) _ hLq
  have hctx : (bg.collate posSize nerSize batch).contextId
      = mat2 (batch.map fun x => x.doc).length
          (listMax (batch.map fun x => x.doc.length))
          (buildPadded (0 : ℤ) (batch.map fun x => x.doc)) := by
    rw [collate_contextId, hpad, doc_len_map, List.length_map]
  have hqst : (bg.collate posSize nerSize batch).questionId
      = mat2 (batch.map fun x => x.question).length
          (listMax (batch.map fun x => x.question.length))
          (buildPadded (0 : ℤ) (batch.map fun x => x.question)) := by
    rw [collate_questionId, hpad, question_len_map, List.length_map]
  refine ⟨?_, ?_, ?_, ?_, ?_, ?_, ?_, ?_, ?_, ?_⟩
  · rw [hctx, hd.1, List.length_map]
  · intro row hrow
    rw [hctx] at hrow
    exact hd.2.1 row hrow
  · obtain ⟨v, hvmem, hveq⟩ := listMax_attained (batch.map fun x => x.doc.length)
      (by intro h; exact hne (by simpa using h))
    obtain ⟨e, he, rfl⟩ := List.mem_map.mp hvmem
    exact ⟨e, he, hveq⟩
  · intro e he
    apply le_listMax
    exact List.mem_map_of_mem _ he
  · intro i e he
    rw [hctx]
    apply hd.2.2 i e.doc
    rw [List.getElem?_map, he]
    rfl
  · rw [hqst, hq.1, List.length_map]
  · intro row hrow
    rw [hqst] at hrow
    exact hq.2.1 row hrow
  · obtain ⟨v, hvmem, hveq⟩ := listMax_attained (batch.map fun x => x.question.length)
      (by intro h; exact hne (by simpa using h))
    obtain ⟨e, he, rfl⟩ := List.mem_map.mp hvmem
    exact ⟨e, he, hveq⟩
  · intro e he
    apply le_listMax
    exact List.mem_map_of_mem _ he
  · intro i e he
    rw [hqst]
    apply hq.2.2 i e.question
    rw [List.getElem?_map, he]
    rfl

/-- Witness for C4: the theorem instantiated at a `BatchGen` built by
`BatchGen.init` in non-BERT mode (pad token 0) and the concrete
three-example batch. -/
theorem C4_zero_padding_witness :
    (BatchGen.init exData 2 false true false 0 []).padToken = 0 ∧ exData ≠ [] ∧
    ((BatchGen.init exData 2 false true false 0 []).collate 2 2 exData).contextId.length
        = exData.length ∧
    (∀ row ∈ ((BatchGen.init exData 2 false true false 0 []).collate 2 2 exData).contextId,
      row.length = listMax (exData.map fun x => x.doc.length)) ∧
    (∃ e ∈ exData, e.doc.length = listMax (exData.map fun x => x.doc.length)) ∧
    (∀ e ∈ exData, e.doc.length ≤ listMax (exData.map fun x => x.doc.length)) ∧
    (∀ (i : ℕ) (e : Example), exData[i]? = some e →
      ((BatchGen.init exData 2 false true false 0 []).collate 2 2 exData).contextId[i]? =
        some (e.doc ++ List.replicate
          (listMax (exData.map fun x => x.doc.length) - e.doc.length) (0 : ℤ))) ∧
    ((BatchGen.init exData 2 false true false 0 []).collate 2 2 exData).questionId.length
        = exData.length ∧
    (∀ row ∈ ((BatchGen.init exData 2 false true false 0 []).collate 2 2 exData).questionId,
      row.length = listMax (exData.map fun x => x.question.length)) ∧
    (∃ e ∈ exData, e.question.length = listMax (exData.map fun x => x.question.length)) ∧
    (∀ e ∈ exData, e.question.length ≤ listMax (exData.map fun x => x.question.length)) ∧
    (∀ (i : ℕ) (e : Example), exData[i]? = some e →
      ((BatchGen.init exData 2 false true false 0 []).collate 2 2 exData).questionId[i]? =
        some (e.question ++ List.replicate
          (listMax (exData.map fun x => x.question.length) - e.question.length) (0 : ℤ))) :=
  ⟨rfl, by decide,
    C4_zero_padding (BatchGen.init exData 2 false true false 0 []) 2 2 exData rfl (by decide)⟩

/-- C5: in non-BERT mode, `context_tag` and `context_ent` are exact
one-hot tensors of shape batch-size by longest-document by
`pos_size` / `ner_size`: entry `(i, j, t)` is 1 exactly when `j` indexes
a real (non-padding) token of document `i` whose tag (resp. entity) is
`t`, and 0 everywhere else.  The hypotheses record the data invariants
under which the torch code runs without an index error: per-token tag
and entity lists aligned with the document, with values below the
vocabulary sizes. -/
theorem C5_one_hot (bg : BatchGen) (posSize nerSize : ℕ) (batch : List Example)
    (hbert : bg.bert = false)
    (hlen : ∀ e ∈ batch, e.tags.length = e.doc.length ∧ e.ents.length = e.doc.length)
    (hrange : ∀ e ∈ batch, (∀ g ∈ e.tags, g < posSize) ∧ (∀ g ∈ e.ents, g < nerSize)) :
    ∃ tagT entT,
      (bg.collate posSize nerSize batch).contextTag = some tagT ∧
      (bg.collate posSize nerSize batch).contextEnt = some entT ∧
      tagT.length = batch.length ∧
      (∀ p ∈ tagT, p.length = listMax (batch.map fun x => x.doc.length) ∧
        ∀ q ∈ p, q.length = posSize) ∧
      entT.length = batch.length ∧
      (∀ p ∈ entT, p.length = listMax (batch.map fun x => x.doc.length) ∧
        ∀ q ∈ p, q.length = nerSize) ∧
      (∀ (i : ℕ) (e : Example), batch[i]? = some e →
        ∀ j < listMax (batch.map fun x => x.doc.length), ∀ t < posSize,
          entry3 tagT i j t
            = if j < e.doc.length ∧ e.tags[j]? = some t then 1 else 0) ∧
      (∀ (i : ℕ) (e : Example), batch[i]? = some e →
        ∀ j < listMax (batch.map fun x => x.doc.length), ∀ t < nerSize,
          entry3 entT i j t
            = if j < e.doc.length ∧ e.ents[j]? = some t then 1 else 0) := by
  refine ⟨mat3 batch.length (listMax (batch.map fun x => x.doc.length)) posSize
      (buildOneHot (batch.map fun x => x.tags)),
    mat3 batch.length (listMax (batch.map fun x => x.doc.length)) nerSize
      (buildOneHot (batch.map fun x => x.ents)), ?_, ?_, ?_, ?_, ?_, ?_, ?_, ?_⟩
  · rw [collate_contextTag, hbert, doc_len_map]
    rfl
  · rw [collate_contextEnt, hbert, doc_len_map]
    rfl
  · exact mat3_length _ _ _ _
  · exact mat3_plane_length _ _ _ _
  · exact mat3_length _ _ _ _
  · exact mat3_plane_length _ _ _ _
  · intro i e he j hj t ht
    rw [entry3_mat3 _ _ _ _ i j t (lt_of_getElem?_some he) hj ht]
    rw [buildOneHot_apply]
    have hrow : (batch.map fun x => x.tags)[i]? = some e.tags := by
      rw [List.getElem?_map, he]
      rfl
    rw [hrow]
    simp only [Option.getD_some]
    by_cases hc : e.tags[j]? = some t
    · have hjlen : j < e.tags.length := lt_of_getElem?_some hc
      rw [if_pos hc, if_pos ⟨by rw [← (hlen e (List.getElem?_mem he)).1]; exact hjlen, hc⟩]
    · rw [if_neg hc, if_neg (by tauto)]
  · intro i e he j hj t ht
    rw [entry3_mat3 _ _ _ _ i j t (lt_of_getElem?_some he) hj ht]
    rw [buildOneHot_apply]
    have hrow : (batch.map fun x => x.ents)[i]? = some e.ents := by
      rw [List.getElem?_map, he]
      rfl
    rw [hrow]
    simp only [Option.getD_some]
    by_cases hc : e.ents[j]? = some t
    · have hjlen : j < e.ents.length := lt_of_getElem?_some hc
      rw [if_pos hc, if_pos ⟨by rw [← (hlen e (List.getElem?_mem he)).2]; exact hjlen, hc⟩]
    · rw [if_neg hc, if_neg (by tauto)]

/-- Witness for C5: the theorem instantiated at the `BatchGen` built by
`BatchGen.init` in non-BERT mode and the concrete three-example batch,
with tag and entity vocabularies of size 2. -/
theorem C5_one_hot_witness :
    (BatchGen.init exData 2 false true false 0 []).bert = false ∧
    (∀ e ∈ exData, e.tags.length = e.doc.length ∧ e.ents.length = e.doc.length) ∧
    (∀ e ∈ exData, (∀ g ∈ e.tags, g < 2) ∧ (∀ g ∈ e.ents, g < 2)) ∧
    (∃ tagT entT,
      ((BatchGen.init exData 2 false true false 0 []).collate 2 2 exData).contextTag
        = some tagT ∧
      ((BatchGen.init exData 2 false true false 0 []).collate 2 2 exData).contextEnt
        = some entT ∧
      tagT.length = exData.length ∧
      (∀ p ∈ tagT, p.length = listMax (exData.map fun x => x.doc.length) ∧
        ∀ q ∈ p, q.length = 2) ∧
      entT.length = exData.length ∧
      (∀ p ∈ entT, p.length = listMax (exData.map fun x => x.doc.length) ∧
        ∀ q ∈ p, q.length = 2) ∧
      (∀ (i : ℕ) (e : Example), exData[i]? = some e →
        ∀ j < listMax (exData.map fun x => x.doc.length), ∀ t < 2,
          entry3 tagT i j t
            = if j < e.doc.length ∧ e.tags[j]? = some t then 1 else 0) ∧
      (∀ (i : ℕ) (e : Example), exData[i]? = some e →
        ∀ j < listMax (exData.map fun x => x.doc.length), ∀ t < 2,
          entry3 entT i j t
            = if j < e.doc.length ∧ e.ents[j]? = some t then 1 else 0)) :=
  ⟨rfl, by decide, by decide,
    C5_one_hot (BatchGen.init exData 2 false true false 0 []) 2 2 exData rfl
      (by decide) (by decide)⟩

/-! ## Lemmas about predict, the resume path and the epoch loop -/

theorem predict_nameError (m : DocReaderModel) (ex : CollatedBatch)
    (network : CollatedBatch → List ℚ) :
    m.predict ex network = .error (.nameError "opt") := by
  unfold DocReaderModel.predict
  rw [if_neg (by decide : ¬ (modelModuleGlobals.contains "opt" = true))]

theorem evalAll_cons_error (m : DocReaderModel) (b : CollatedBatch)
    (rest : List CollatedBatch) (network : CollatedBatch → List ℚ) :
    evalAll m (b :: rest) network = .error (.nameError "opt") := by
  simp only [evalAll, List.foldlM_cons]
  rw [predict_nameError]
  rfl

theorem sortByLen_ne_nil (dev : List Example) (hdev : dev ≠ []) :
    sortByLen dev ≠ [] := by
  intro h
  apply hdev
  have hlen := List.length_insertionSort lenLe dev
  rw [sortByLen] at h
  rw [h] at hlen
  exact List.length_eq_zero.mp hlen.symm

theorem sortedChunks_cons (dev : List Example) (bs : ℕ) (hbs : 0 < bs)
    (hdev : dev ≠ []) :
    ∃ c cs, sortedChunks dev bs = c :: cs := by
  rw [sortedChunks, chunkList_cons bs hbs _ (sortByLen_ne_nil dev hdev)]
  exact ⟨_, _, rfl⟩

theorem evalGo_cons_error (m : DocReaderModel) (o : Oracles) (devY : List ℤ)
    (b : CollatedBatch) (rest : List CollatedBatch) (preds : List ℤ)
    (ev : List Event) :
    evalGo m o devY (b :: rest) preds ev = (ev, .error (.nameError "opt")) := by
  simp [evalGo, predict_nameError]

theorem trainPhase_trace (o : Oracles) :
    ∀ (batches : List CollatedBatch) (m : DocReaderModel) (ev : List Event),
    (batches.foldl (fun acc b => (acc.1.update b o.stepNet o.stepOpt o.lossVal,
        acc.2 ++ [Event.update])) (m, ev)).2
      = ev ++ List.replicate batches.length Event.update := by
  intro batches
  induction batches with
  | nil => intro m ev; simp
  | cons b bs ih =>
    intro m ev
    simp only [List.foldl_cons, List.length_cons]
    rw [ih]
    simp [List.replicate_succ, List.append_assoc]

theorem trainPhase_events (m : DocReaderModel) (batches : List CollatedBatch)
    (o : Oracles) :
    (trainPhase m batches o).2 = List.replicate batches.length Event.update := by
  unfold trainPhase
  rw [trainPhase_trace]
  simp

/-! ## Claims C1, C2, C7, C8 and C10 -/

/-- C8 (code bug): the claim describes `predict` returning one rounded
0/1 prediction per example while leaving the model untouched, which is
plainly the intent of model.py lines 99-119; in fact every call raises
`NameError`, because line 110 evaluates the unbound module-global name
`opt` (`opt["cuda"]` instead of `self.opt["cuda"]`), before the network
is ever invoked. -/
theorem C8_predict_raises_NameError (m : DocReaderModel) (ex : CollatedBatch)
    (network : CollatedBatch → List ℚ) :
    m.predict ex network = .error (.nameError "opt") :=
  predict_nameError m ex network

/-- C1 (code bug): on resume the program is meant to re-evaluate the
restored model on the dev set and either exit with status 1 (accuracy
gap above 1e-3) or continue with the recorded best score; in fact, with
any nonempty dev set, the very first `model.predict` call raises
`NameError` (unbound module-global `opt`, model.py line 110), so the
resume path aborts before any accuracy is computed and neither branch
of the consistency check runs. -/
theorem C1_resume_crashes (ckpt : Checkpoint) (m : DocReaderModel)
    (dev : List Example) (batchSize : ℕ) (gpu : Bool) (posSize nerSize : ℕ)
    (network : CollatedBatch → List ℚ) (devY : List ℤ)
    (hbs : 0 < batchSize) (hdev : dev ≠ []) :
    resumeStep ckpt m dev batchSize gpu posSize nerSize network devY
      = .error (.nameError "opt") := by
  obtain ⟨c, cs, hcc⟩ := sortedChunks_cons dev batchSize hbs hdev
  have hdata : (BatchGen.init dev batchSize gpu true false 0 []).data = c :: cs := hcc
  simp only [resumeStep, hdata, List.map_cons]
  rw [evalAll_cons_error]
  rfl

/-- Witness for C1: the resume path at a concrete checkpoint, model and
nonempty dev set raises `NameError`. -/
theorem C1_resume_crashes_witness :
    (0 : ℕ) < 1 ∧ exData ≠ [] ∧
    resumeStep ckpt0 model0 exData 1 false 2 2 (fun _ => []) [1, 0, 1]
      = .error (.nameError "opt") :=
  ⟨by decide, by decide,
    C1_resume_crashes ckpt0 model0 exData 1 false 2 2 (fun _ => []) [1, 0, 1]
      (by decide) (by decide)⟩

/-- C2: a call to `DocReaderModel.save` on which the externals succeed
writes a checkpoint holding exactly the network state dict, the
optimizer state dict, the updates counter and the loss-meter state
(nested under `state_dict`), the config, the epoch, the given accuracy
and best_eval, and the three randomness states (Python `random`, torch
RNG and torch CUDA RNG). -/
theorem C2_save_checkpoint_contents (m : DocReaderModel) (epoch : ℕ)
    (accuracy best_eval : ℚ) (rs ts cs : ℕ) (file : Option Checkpoint) :
    m.save epoch (accuracy, best_eval) ⟨rs, ts, some cs⟩ true file
      = .ok (some
          { state_dict :=
              { network := m.networkState
                optimizer := m.optimizerState
                updates := m.updates
                loss := m.trainLoss }
            config := m.opt
            epoch := epoch
            accuracy := accuracy
            best_eval := best_eval
            random_state := rs
            torch_state := ts
            torch_cuda_state := cs }, false) := rfl

/-- C10 counterexample: `save` CAN raise to its caller.  The
`torch.cuda.get_rng_state()` call sits outside the try block, and on a
machine or build without CUDA it raises; the exception propagates out of
`save`, refuting the claim that `save` never raises. -/
theorem C10_save_raises_counterexample :
    (DocReaderModel.mk ⟨false, false⟩ 0 0 0 ⟨0⟩).save 1 (1/2, 0)
      ⟨0, 0, none⟩ true none = .error .cudaRuntimeError := rfl

/-- C10 amended: provided the checkpoint dictionary is assembled
successfully (in particular the CUDA RNG query, which runs outside the
try block, returns), `save` never raises: any `torch.save` failure is
caught as `BaseException`, a warning is logged, and the target file is
left unchanged by the failed attempt. -/
theorem C10_save_catches_torch_save_failures (m : DocReaderModel) (epoch : ℕ)
    (scores : ℚ × ℚ) (rs ts cs : ℕ) (file : Option Checkpoint) :
    (∀ torchSaveOk : Bool,
      ∃ r, m.save epoch scores ⟨rs, ts, some cs⟩ torchSaveOk file = .ok r) ∧
    m.save epoch scores ⟨rs, ts, some cs⟩ false file = .ok (file, true) := by
  constructor
  · intro torchSaveOk
    cases torchSaveOk
    · exact ⟨(file, true), rfl⟩
    · exact ⟨_, rfl⟩
  · rfl

/-- C7 (code bug): each epoch is meant to run train-then-eval-then-save;
in fact, in the very first epoch the evaluation phase raises `NameError`
on its first dev batch (unbound module-global `opt` in
`DocReaderModel.predict`), so the loop performs one `update` per
training batch of epoch one and then aborts: no accuracy is computed, no
checkpoint is written, and best_model.pt is never touched. -/
theorem C7_loop_crashes_before_save (args : TrainArgs)
    (trainData devData : List Example) (devY : List ℤ) (o : Oracles)
    (m0 : DocReaderModel) (best0 : ℚ)
    (heps : 1 ≤ args.epochs) (hbs : 0 < args.batchSize) (hdev : devData ≠ []) :
    runTraining args trainData devData devY o m0 best0
      = (List.replicate (sortedChunks trainData args.batchSize).length Event.update,
         .error (.nameError "opt")) := by
  obtain ⟨n, hn⟩ : ∃ n, args.epochs = n + 1 := ⟨args.epochs - 1, by omega⟩
  obtain ⟨c, cs, hcc⟩ := sortedChunks_cons devData args.batchSize hbs hdev
  have hdevd : (BatchGen.init devData args.batchSize args.gpu true args.bert
      args.bertPadId []).data = c :: cs := hcc
  unfold runTraining
  rw [hn]
  simp only [runEpochs, hdevd, List.map_cons]
  rw [evalGo_cons_error]
  simp only []
  rw [trainPhase_events]
  rw [List.append_nil, List.length_map]
  have hlen : (BatchGen.init trainData args.batchSize args.gpu false args.bert
      args.bertPadId (o.draws args.epoch0)).data.length
      = (sortedChunks trainData args.batchSize).length :=
    (shuffleDraws_perm (o.draws args.epoch0)
      (sortedChunks trainData args.batchSize)).length_eq
  rw [hlen]

/-- Witness for C7: the concrete one-epoch run over the sample data
performs two training updates (two batches of the three sorted
examples at batch size 2) and then aborts with `NameError`, before any
save. -/
theorem C7_loop_crashes_before_save_witness :
    1 ≤ args0.epochs ∧ 0 < args0.batchSize ∧ exData ≠ [] ∧
    runTraining args0 exData exData [1, 0, 1] oracles0 model0 0
      = (List.replicate (sortedChunks exData args0.batchSize).length Event.update,
         .error (.nameError "opt")) :=
  ⟨by decide, by decide, by decide,
    C7_loop_crashes_before_save args0 exData exData [1, 0, 1] oracles0 model0 0
      (by decide) (by decide) (by decide)⟩

end DrQA
